import Mathlib

/-!
Shallow embedding of the tiling core of `src/tiles.py` (fema-ffrd/ffrd-grid-tiling).

Python floats are modelled as exact rationals (`ℚ`), Python ints as `ℤ`.
Python `math.floor` / `math.ceil` on a rational value are `Int.floor` / `Int.ceil`.
Python `round` with no digits is round-half-to-even (`pyRound` below).
Python string formatting is modelled at the character-list level and packed
into `String` (which in this toolchain is a structure around `List Char`,
with the lexicographic order used by Python string comparison).
The `geometry` field built by `shapely.box(x0, y0, x1, y1)` is an external
collaborator and is determined by the four rational corners already present
in the record, so it is not repeated in the embedding.
-/

namespace FfrdTiles

/-- Fuel-indexed big-endian decimal digit values of a natural number. -/
def decCore : ℕ → ℕ → List ℕ
  | 0, _ => []
  | f + 1, n => if n < 10 then [n] else decCore f (n / 10) ++ [n % 10]

/-- Big-endian decimal digit values of a natural number. -/
def natDigitsBE (n : ℕ) : List ℕ := decCore (n + 1) n

/-- ASCII character of a decimal digit value (48 is the code of the zero digit). -/
def digitChar48 (d : ℕ) : Char := Char.ofNat (48 + d)

/-- Decimal digit characters of a natural number, as printed by Python for a
nonnegative int. -/
def decDigits (n : ℕ) : List Char := (natDigitsBE n).map digitChar48

/-- Decimal rendering of an integer, as printed by Python `str` on an int:
a minus sign for negative values, then the decimal digits of the absolute value. -/
def intDigits (n : ℤ) : List Char := (if n < 0 then ['-'] else []) ++ decDigits n.natAbs

/-- Python format specification `+07d`: a mandatory sign character, then the
decimal digits of the absolute value zero-padded on the left so that the whole
field (sign included) is at least 7 characters wide, i.e. the digit part is
padded to at least 6 characters. -/
def fmtPlus07 (n : ℤ) : List Char :=
  (if n < 0 then ['-'] else ['+'])
    ++ List.replicate (6 - (decDigits n.natAbs).length) '0'
    ++ decDigits n.natAbs

/-- Python `round` with no digits argument: nearest integer, ties go to the
even integer (banker's rounding). -/
def pyRound (q : ℚ) : ℤ :=
  let f := ⌊q⌋
  let r := q - (f : ℚ)
  if r < 1 / 2 then f
  else if 1 / 2 < r then f + 1
  else if f % 2 = 0 then f else f + 1

/-- Embedding of `snapped_start` (src/tiles.py lines 80-82):
snap down to the nearest tile boundary relative to origin. -/
def snapped_start (value origin size : ℚ) : ℚ :=
  origin + (⌊(value - origin) / size⌋ : ℚ) * size

/-- Embedding of `snapped_end` (src/tiles.py lines 85-87):
snap up to the nearest tile boundary relative to origin. -/
def snapped_end (value origin size : ℚ) : ℚ :=
  origin + (⌈(value - origin) / size⌉ : ℚ) * size

/-- Embedding of `idx_from_ll` (src/tiles.py lines 90-97): stable (col, row)
indices from a tile's lower-left corner relative to origin, using floor. -/
def idx_from_ll (xmin ymin origin_x origin_y tile_size : ℚ) : ℤ × ℤ :=
  (⌊(xmin - origin_x) / tile_size⌋, ⌊(ymin - origin_y) / tile_size⌋)

/-- The three distinct `ValueError` raise sites of `validate_tile_resolution`
(src/tiles.py lines 110-130), in source order. -/
inductive ValidationError where
  | nonIntegerPixelCount
  | blockMisalignment512
  | blockMisalignment16
  deriving DecidableEq

/-- Embedding of `validate_tile_resolution` (src/tiles.py lines 100-130). -/
def validate_tile_resolution (tile_size resolution : ℚ) : Except ValidationError Unit :=
  let pixels := tile_size / resolution
  if |pixels - (pyRound pixels : ℚ)| > 1 / 1000000000 then
    Except.error ValidationError.nonIntegerPixelCount
  else
    let p : ℤ := pyRound pixels
    if p % 512 ≠ 0 then Except.error ValidationError.blockMisalignment512
    else if p % 16 ≠ 0 then Except.error ValidationError.blockMisalignment16
    else Except.ok ()

/-- Embedding of `format_tile_id` (src/tiles.py lines 133-146), the f-string
`T{tile_size_int}_R{resolution_int}_C{col:+07d}_R{row:+07d}` with
`tile_size_int = int(round(tile_size))` and `resolution_int = int(round(resolution))`. -/
def format_tile_id (tile_size : ℚ) (col row : ℤ) (resolution : ℚ) : String :=
  ⟨['T'] ++ intDigits (pyRound tile_size)
    ++ ['_', 'R'] ++ intDigits (pyRound resolution)
    ++ ['_', 'C'] ++ fmtPlus07 col
    ++ ['_', 'R'] ++ fmtPlus07 row⟩

/-- One record of `generate_tiles` (src/tiles.py lines 174-189), minus the
shapely `geometry` value, which is determined by the four corner fields. -/
structure Rec where
  tile_id : String
  tile_size_ft : ℚ
  resolution_ft : ℚ
  origin_x : ℚ
  origin_y : ℚ
  col : ℤ
  row : ℤ
  xmin : ℚ
  ymin : ℚ
  xmax : ℚ
  ymax : ℚ
  width : ℚ
  height : ℚ
  deriving DecidableEq

/-- Body of the double loop of `generate_tiles` (src/tiles.py lines 163-191):
the record emitted at loop position `(r, c)` given the snapped lower-left
corner `(sxmin, symin)` of the covering rectangle. -/
def tileAt (tile_size origin_x origin_y resolution sxmin symin : ℚ) (r c : ℕ) : Rec :=
  let y0 := symin + (r : ℚ) * tile_size
  let y1 := y0 + tile_size
  let x0 := sxmin + (c : ℚ) * tile_size
  let x1 := x0 + tile_size
  let cr := idx_from_ll x0 y0 origin_x origin_y tile_size
  { tile_id := format_tile_id tile_size cr.1 cr.2 resolution
    tile_size_ft := tile_size
    resolution_ft := resolution
    origin_x := origin_x
    origin_y := origin_y
    col := cr.1
    row := cr.2
    xmin := x0
    ymin := y0
    xmax := x1
    ymax := y1
    width := tile_size
    height := tile_size }

/-- Embedding of `generate_tiles` (src/tiles.py lines 148-193). Python
`range(n)` over an int that may be negative is empty for nonpositive `n`,
hence `Int.toNat`. The row loop is outer, the column loop inner. -/
def generate_tiles (bounds : ℚ × ℚ × ℚ × ℚ)
    (tile_size origin_x origin_y resolution : ℚ) : List Rec :=
  let xmin := bounds.1
  let ymin := bounds.2.1
  let xmax := bounds.2.2.1
  let ymax := bounds.2.2.2
  let sxmin := snapped_start xmin origin_x tile_size
  let symin := snapped_start ymin origin_y tile_size
  let sxmax := snapped_end xmax origin_x tile_size
  let symax := snapped_end ymax origin_y tile_size
  let ncols : ℤ := pyRound ((sxmax - sxmin) / tile_size)
  let nrows : ℤ := pyRound ((symax - symin) / tile_size)
  (List.range nrows.toNat).flatMap fun r =>
    (List.range ncols.toNat).map
      (tileAt tile_size origin_x origin_y resolution sxmin symin r)

/-! ### Evaluation helpers

Concrete rational arithmetic does not reduce definitionally (the `Rat`
operations are irreducible), so concrete floors, ceilings and roundings are
established through the following lemmas and `norm_num`. -/

lemma floor_eq_of {q : ℚ} {z : ℤ} (h1 : (z : ℚ) ≤ q) (h2 : q < z + 1) : ⌊q⌋ = z :=
  Int.floor_eq_iff.mpr ⟨h1, h2⟩

lemma ceil_eq_of {q : ℚ} {z : ℤ} (h1 : (z : ℚ) - 1 < q) (h2 : q ≤ z) : ⌈q⌉ = z :=
  Int.ceil_eq_iff.mpr ⟨h1, h2⟩

lemma pyRound_eq_low {q : ℚ} {z : ℤ} (hf : ⌊q⌋ = z) (h : q - z < 1 / 2) : pyRound q = z := by
  simp only [pyRound, hf]
  exact if_pos h

lemma pyRound_eq_high {q : ℚ} {z : ℤ} (hf : ⌊q⌋ = z) (h : 1 / 2 < q - z) :
    pyRound q = z + 1 := by
  simp only [pyRound, hf]
  rw [if_neg (by linarith), if_pos h]

lemma pyRound_intCast (z : ℤ) : pyRound (z : ℚ) = z :=
  pyRound_eq_low (Int.floor_intCast z) (by rw [sub_self]; norm_num)

example : pyRound ((98304 : ℤ) : ℚ) = 98304 := pyRound_intCast 98304

/-! ### Structural lemmas about the row-major double loop -/

lemma length_flatMap_range_map {α : Type} (f : ℕ → ℕ → α) (n m : ℕ) :
    ((List.range n).flatMap fun r => (List.range m).map (f r)).length = n * m := by
  induction n with
  | zero => simp
  | succ n ih =>
    rw [List.range_succ, List.flatMap_append]
    simp [ih, Nat.succ_mul]

lemma getElem?_flatMap_range_map {α : Type} (f : ℕ → ℕ → α) {n m r c : ℕ}
    (hr : r < n) (hc : c < m) :
    ((List.range n).flatMap fun i => (List.range m).map (f i))[r * m + c]? = some (f r c) := by
  induction n with
  | zero => omega
  | succ n ih =>
    have hlen : ((List.range n).flatMap fun i => (List.range m).map (f i)).length = n * m :=
      length_flatMap_range_map f n m
    rw [List.range_succ, List.flatMap_append]
    rcases Nat.lt_or_ge r n with h | h
    · have hb : r * m + c < n * m := by
        have h1 : r * m + c < (r + 1) * m := by rw [Nat.succ_mul]; omega
        have h2 : (r + 1) * m ≤ n * m := Nat.mul_le_mul_right m h
        omega
      rw [List.getElem?_append_left (by rw [hlen]; exact hb)]
      exact ih h
    · have hrn : r = n := by omega
      subst hrn
      rw [List.getElem?_append_right (by rw [hlen]; omega)]
      rw [hlen]
      have hidx : r * m + c - r * m = c := by omega
      rw [hidx]
      simp [List.getElem?_range hc]

lemma generate_tiles_length (xmin ymin xmax ymax tile_size origin_x origin_y resolution : ℚ) :
    (generate_tiles (xmin, ymin, xmax, ymax) tile_size origin_x origin_y resolution).length =
      (pyRound ((snapped_end ymax origin_y tile_size - snapped_start ymin origin_y tile_size)
          / tile_size)).toNat *
        (pyRound ((snapped_end xmax origin_x tile_size - snapped_start xmin origin_x tile_size)
          / tile_size)).toNat := by
  simp only [generate_tiles]
  exact length_flatMap_range_map _ _ _

lemma generate_tiles_getElem? (xmin ymin xmax ymax tile_size origin_x origin_y resolution : ℚ)
    {r c : ℕ}
    (hr : r < (pyRound ((snapped_end ymax origin_y tile_size
        - snapped_start ymin origin_y tile_size) / tile_size)).toNat)
    (hc : c < (pyRound ((snapped_end xmax origin_x tile_size
        - snapped_start xmin origin_x tile_size) / tile_size)).toNat) :
    (generate_tiles (xmin, ymin, xmax, ymax) tile_size origin_x origin_y resolution)[
        r * (pyRound ((snapped_end xmax origin_x tile_size
          - snapped_start xmin origin_x tile_size) / tile_size)).toNat + c]? =
      some (tileAt tile_size origin_x origin_y resolution
        (snapped_start xmin origin_x tile_size) (snapped_start ymin origin_y tile_size) r c) := by
  simp only [generate_tiles]
  exact getElem?_flatMap_range_map _ hr hc

lemma mem_generate_tiles {t : Rec} {xmin ymin xmax ymax tile_size origin_x origin_y resolution : ℚ}
    (ht : t ∈ generate_tiles (xmin, ymin, xmax, ymax) tile_size origin_x origin_y resolution) :
    t.col = (idx_from_ll t.xmin t.ymin origin_x origin_y tile_size).1 ∧
      t.row = (idx_from_ll t.xmin t.ymin origin_x origin_y tile_size).2 ∧
      t.tile_id = format_tile_id tile_size t.col t.row resolution := by
  simp only [generate_tiles, List.mem_flatMap, List.mem_map, List.mem_range] at ht
  obtain ⟨r, hr, c, hc, rfl⟩ := ht
  exact ⟨rfl, rfl, rfl⟩

/-! ### Snapping bounds -/

lemma snapped_start_le (value origin size : ℚ) (hs : 0 < size) :
    snapped_start value origin size ≤ value := by
  unfold snapped_start
  have h := mul_le_mul_of_nonneg_right (Int.floor_le ((value - origin) / size)) hs.le
  rw [div_mul_cancel₀ _ (ne_of_gt hs)] at h
  linarith

lemma le_snapped_end (value origin size : ℚ) (hs : 0 < size) :
    value ≤ snapped_end value origin size := by
  unfold snapped_end
  have h := mul_le_mul_of_nonneg_right (Int.le_ceil ((value - origin) / size)) hs.le
  rw [div_mul_cancel₀ _ (ne_of_gt hs)] at h
  linarith

/-- C8: the tile indexer computes exactly the floor formula
`(floor((x0 - origin_x) / tile_size), floor((y0 - origin_y) / tile_size))`,
and on the boundary point `x0 = -98304` with `tile_size = 98304`, `origin_x = 0`
it yields column `-1` (not `0`, not `-2`). -/
theorem c8_idx_from_ll_floor (x0 y0 origin_x origin_y tile_size : ℚ) (hts : 0 < tile_size) :
    idx_from_ll x0 y0 origin_x origin_y tile_size =
      (⌊(x0 - origin_x) / tile_size⌋, ⌊(y0 - origin_y) / tile_size⌋) ∧
    (idx_from_ll (-98304) 0 0 0 98304).1 = -1 := by
  refine ⟨rfl, ?_⟩
  show ⌊((-98304 : ℚ) - 0) / 98304⌋ = -1
  exact floor_eq_of (by norm_num) (by norm_num)

theorem c8_witness :
    idx_from_ll (-98304) 0 0 0 98304 =
      (⌊((-98304 : ℚ) - 0) / 98304⌋, ⌊((0 : ℚ) - 0) / 98304⌋) ∧
    (idx_from_ll (-98304) 0 0 0 98304).1 = -1 :=
  c8_idx_from_ll_floor (-98304) 0 0 0 98304 (by norm_num)

/-- C6: for every bounds, origin and positive tile size, the snapped rectangle
contains the input bounds: `sxmin <= xmin`, `symin <= ymin`, `sxmax >= xmax`,
`symax >= ymax`. -/
theorem c6_snap_coverage (xmin ymin xmax ymax origin_x origin_y tile_size : ℚ)
    (hts : 0 < tile_size) :
    snapped_start xmin origin_x tile_size ≤ xmin ∧
    snapped_start ymin origin_y tile_size ≤ ymin ∧
    xmax ≤ snapped_end xmax origin_x tile_size ∧
    ymax ≤ snapped_end ymax origin_y tile_size :=
  ⟨snapped_start_le _ _ _ hts, snapped_start_le _ _ _ hts,
    le_snapped_end _ _ _ hts, le_snapped_end _ _ _ hts⟩

theorem c6_witness :
    snapped_start (-10000) 0 98304 ≤ -10000 ∧
    snapped_start (-10000) 0 98304 ≤ -10000 ∧
    (100000 : ℚ) ≤ snapped_end 100000 0 98304 ∧
    (100000 : ℚ) ≤ snapped_end 100000 0 98304 :=
  c6_snap_coverage (-10000) (-10000) 100000 100000 0 0 98304 (by norm_num)

/-! ### Concrete roundings of the sizes used in the examples -/

lemma pyRound_eq_of_eq_intCast {q : ℚ} {z : ℤ} (h : q = (z : ℚ)) : pyRound q = z :=
  h ▸ pyRound_intCast z

lemma pyRound_98304 : pyRound (98304 : ℚ) = 98304 :=
  pyRound_eq_of_eq_intCast (by norm_num)

lemma pyRound_32 : pyRound (32 : ℚ) = 32 :=
  pyRound_eq_of_eq_intCast (by norm_num)

/-- C2 evaluation: the `+07d` field pads the whole signed field to width 7, so
small indices render with a sign and six digits, not seven; a 7-digit index
renders with a sign and seven digits (total width 8), so the field width is not
fixed across the documented range. -/
theorem c2_format_tile_id_eval :
    format_tile_id 98304 0 0 32 = "T98304_R32_C+000000_R+000000" ∧
    format_tile_id 98304 9999999 (-9999999) 32 = "T98304_R32_C+9999999_R-9999999" := by
  constructor <;>
    · simp only [format_tile_id, pyRound_98304, pyRound_32]
      decide

/-- C10: the divisible-by-16 branch of `validate_tile_resolution` is dead code:
any integer divisible by 512 is divisible by 16, and the 512 check runs first,
so no input can produce the divisible-by-16 error. -/
theorem c10_div16_branch_unreachable :
    (∀ p : ℤ, p % 512 = 0 → p % 16 = 0) ∧
    ∀ tile_size resolution : ℚ,
      validate_tile_resolution tile_size resolution ≠
        Except.error ValidationError.blockMisalignment16 := by
  have key : ∀ p : ℤ, p % 512 = 0 → p % 16 = 0 := by
    intro p hp
    have h512 : (512 : ℤ) ∣ p := Int.dvd_of_emod_eq_zero hp
    have h16 : (16 : ℤ) ∣ p := dvd_trans ⟨32, by norm_num⟩ h512
    exact Int.emod_eq_zero_of_dvd h16
  refine ⟨key, ?_⟩
  intro tile_size resolution
  simp only [validate_tile_resolution]
  split_ifs with h1 h2 h3
  · simp
  · simp
  · exact absurd (key _ (not_not.mp h2)) h3
  · simp

/-! ### pyRound picks a nearest integer -/

lemma abs_sub_floor_le (q : ℚ) (n : ℤ) (h : q - ⌊q⌋ ≤ 1 / 2) :
    |q - (⌊q⌋ : ℚ)| ≤ |q - (n : ℚ)| := by
  have hf0 : ((⌊q⌋ : ℤ) : ℚ) ≤ q := Int.floor_le q
  have hf1 : q < (⌊q⌋ : ℚ) + 1 := Int.lt_floor_add_one q
  rw [abs_of_nonneg (by linarith)]
  rcases le_or_lt n ⌊q⌋ with hn | hn
  · have hn' : (n : ℚ) ≤ (⌊q⌋ : ℚ) := by exact_mod_cast hn
    have h2 := le_abs_self (q - (n : ℚ))
    linarith
  · have hn' : ((⌊q⌋ + 1 : ℤ) : ℚ) ≤ (n : ℚ) := by exact_mod_cast Int.add_one_le_iff.mpr hn
    push_cast at hn'
    have h2 := le_abs_self ((n : ℚ) - q)
    rw [abs_sub_comm] at h2
    linarith

lemma abs_sub_ceil_le (q : ℚ) (n : ℤ) (h : 1 / 2 ≤ q - ⌊q⌋) :
    |q - ((⌊q⌋ : ℚ) + 1)| ≤ |q - (n : ℚ)| := by
  have hf0 : ((⌊q⌋ : ℤ) : ℚ) ≤ q := Int.floor_le q
  have hf1 : q < (⌊q⌋ : ℚ) + 1 := Int.lt_floor_add_one q
  rw [abs_of_nonpos (by linarith)]
  rcases le_or_lt n ⌊q⌋ with hn | hn
  · have hn' : (n : ℚ) ≤ (⌊q⌋ : ℚ) := by exact_mod_cast hn
    have h2 := le_abs_self (q - (n : ℚ))
    linarith
  · have hn' : ((⌊q⌋ + 1 : ℤ) : ℚ) ≤ (n : ℚ) := by exact_mod_cast Int.add_one_le_iff.mpr hn
    push_cast at hn'
    have h2 := le_abs_self ((n : ℚ) - q)
    rw [abs_sub_comm] at h2
    linarith

/-- pyRound returns an integer of minimal distance to its argument. -/
lemma pyRound_nearest (q : ℚ) (n : ℤ) : |q - (pyRound q : ℚ)| ≤ |q - (n : ℚ)| := by
  simp only [pyRound]
  split_ifs with h1 h2 h3
  · exact abs_sub_floor_le q n (by linarith)
  · push_cast
    exact abs_sub_ceil_le q n (by linarith)
  · exact abs_sub_floor_le q n (by linarith)
  · push_cast
    exact abs_sub_ceil_le q n (by linarith)

/-- C5: with positive tile size and resolution, the validator errors exactly
when the pixel count `tile_size / resolution` is farther than 1e-9 from every
integer, or its rounding is not divisible by 512, or not divisible by 16;
it succeeds whenever the pixel count is an exact integer multiple of 512;
and it errors for `tile_size = 1000`, `resolution = 3`. -/
theorem c5_validate_raises_iff (tile_size resolution : ℚ)
    (hts : 0 < tile_size) (hres : 0 < resolution) :
    ((∃ e, validate_tile_resolution tile_size resolution = Except.error e) ↔
      ((∀ n : ℤ, |tile_size / resolution - (n : ℚ)| > 1 / 1000000000) ∨
        ¬((512 : ℤ) ∣ pyRound (tile_size / resolution)) ∨
        ¬((16 : ℤ) ∣ pyRound (tile_size / resolution)))) ∧
    (∀ k : ℤ, tile_size / resolution = ((512 * k : ℤ) : ℚ) →
      validate_tile_resolution tile_size resolution = Except.ok ()) ∧
    validate_tile_resolution 1000 3 = Except.error ValidationError.nonIntegerPixelCount := by
  have hcond : (|tile_size / resolution - (pyRound (tile_size / resolution) : ℚ)|
      > 1 / 1000000000) ↔
      (∀ n : ℤ, |tile_size / resolution - (n : ℚ)| > 1 / 1000000000) := by
    constructor
    · intro h n
      exact lt_of_lt_of_le h (pyRound_nearest _ n)
    · intro h
      exact h _
  refine ⟨?_, ?_, ?_⟩
  · simp only [validate_tile_resolution]
    split_ifs with h1 h2 h3
    · exact ⟨fun _ => Or.inl (hcond.mp h1), fun _ => ⟨_, rfl⟩⟩
    · refine ⟨fun _ => Or.inr (Or.inl ?_), fun _ => ⟨_, rfl⟩⟩
      rw [Int.dvd_iff_emod_eq_zero]
      exact h2
    · refine ⟨fun _ => Or.inr (Or.inr ?_), fun _ => ⟨_, rfl⟩⟩
      rw [Int.dvd_iff_emod_eq_zero]
      exact h3
    · constructor
      · rintro ⟨e, he⟩
        exact absurd he (by simp)
      · rintro (h | h | h)
        · exact absurd (hcond.mpr h) h1
        · exact absurd (Int.dvd_iff_emod_eq_zero.mpr (not_not.mp h2)) h
        · exact absurd (Int.dvd_iff_emod_eq_zero.mpr (not_not.mp h3)) h
  · intro k hk
    simp only [validate_tile_resolution, hk, pyRound_intCast, sub_self, abs_zero]
    rw [if_neg (by norm_num)]
    rw [if_neg (by simp [Int.mul_emod_right])]
    rw [if_neg (by rw [show (512 : ℤ) * k = 16 * (32 * k) by ring]; simp [Int.mul_emod_right])]
  · have hfloor : ⌊(1000 : ℚ) / 3⌋ = 333 := floor_eq_of (by norm_num) (by norm_num)
    have hpy : pyRound ((1000 : ℚ) / 3) = 333 := pyRound_eq_low hfloor (by push_cast; norm_num)
    simp only [validate_tile_resolution, hpy]
    rw [if_pos (by push_cast; rw [abs_of_nonneg (by norm_num)]; norm_num)]

theorem c5_witness : validate_tile_resolution 98304 32 = Except.ok () := by
  have h := c5_validate_raises_iff 98304 32 (by norm_num) (by norm_num)
  exact h.2.1 6 (by norm_num)

lemma format_tile_id_98304_32_neg1 :
    format_tile_id 98304 (-1) (-1) 32 = "T98304_R32_C-000001_R-000001" := by
  simp only [format_tile_id, pyRound_98304, pyRound_32]
  decide

/-- C4 evaluation: on the round-trip example the snapping matches the spec
(`sxmin = symin = -98304`, `sxmax = symax = 196608`) and the first emitted tile
is the one at `col = -1, row = -1` with extent `(-98304, -98304, 0, 0)`, but its
`tile_id` is `T98304_R32_C-000001_R-000001` (six digits after each sign, from
the total-width-7 field), not the documented `T98304_R32_C-0000001_R-0000001`. -/
theorem c4_round_trip_eval :
    snapped_start (-10000) 0 98304 = -98304 ∧
    snapped_end 100000 0 98304 = 196608 ∧
    (generate_tiles (-10000, -10000, 100000, 100000) 98304 0 0 32)[0]? =
      some ⟨"T98304_R32_C-000001_R-000001", 98304, 32, 0, 0, -1, -1,
        -98304, -98304, 0, 0, 98304, 98304⟩ ∧
    "T98304_R32_C-000001_R-000001" ≠ "T98304_R32_C-0000001_R-0000001" := by
  have hf : ⌊((-10000 : ℚ) - 0) / 98304⌋ = -1 := floor_eq_of (by norm_num) (by norm_num)
  have hc : ⌈((100000 : ℚ) - 0) / 98304⌉ = 2 := ceil_eq_of (by norm_num) (by norm_num)
  have h1 : snapped_start (-10000) 0 98304 = -98304 := by
    unfold snapped_start
    rw [hf]
    norm_num
  have h2 : snapped_end 100000 0 98304 = 196608 := by
    unfold snapped_end
    rw [hc]
    norm_num
  have hn : pyRound ((snapped_end 100000 0 98304 - snapped_start (-10000) 0 98304) / 98304)
      = 3 := by
    rw [h1, h2]
    exact pyRound_eq_of_eq_intCast (by norm_num)
  have hr : 0 < (pyRound ((snapped_end 100000 0 98304
      - snapped_start (-10000) 0 98304) / 98304)).toNat := by
    rw [hn]
    decide
  have hget := @generate_tiles_getElem? (-10000) (-10000) 100000 100000 98304 0 0 32 0 0 hr hr
  simp only [Nat.zero_mul, Nat.zero_add] at hget
  rw [h1] at hget
  have hfl2 : ⌊((-98304 : ℚ) + ((0 : ℕ) : ℚ) * 98304 - 0) / 98304⌋ = -1 :=
    floor_eq_of (by push_cast; norm_num) (by push_cast; norm_num)
  have hrec : tileAt 98304 0 0 32 (-98304) (-98304) 0 0 =
      ⟨"T98304_R32_C-000001_R-000001", 98304, 32, 0, 0, -1, -1,
        -98304, -98304, 0, 0, 98304, 98304⟩ := by
    simp only [tileAt, idx_from_ll, hfl2]
    norm_num [Rec.mk.injEq, format_tile_id_98304_32_neg1]
  rw [hrec] at hget
  exact ⟨h1, h2, hget, by decide⟩

/-- C9 counterexample: the inverted bounds `(1/2, 1/2, 2/5, 2/5)`
(`xmax < xmin` and `ymax < ymin`) raise nothing: `generate_tiles` runs the
usual snap-and-iterate and emits one tile. -/
theorem c9_counterexample :
    (generate_tiles ((1 : ℚ) / 2, (1 : ℚ) / 2, (2 : ℚ) / 5, (2 : ℚ) / 5) 1 0 0 512).length
      = 1 := by
  have ha : ⌊((1 : ℚ) / 2 - 0) / 1⌋ = 0 := floor_eq_of (by norm_num) (by norm_num)
  have hb : ⌈((2 : ℚ) / 5 - 0) / 1⌉ = 1 := ceil_eq_of (by norm_num) (by norm_num)
  have h1 : snapped_start ((1 : ℚ) / 2) 0 1 = 0 := by
    unfold snapped_start
    rw [ha]
    norm_num
  have h2 : snapped_end ((2 : ℚ) / 5) 0 1 = 1 := by
    unfold snapped_end
    rw [hb]
    norm_num
  rw [generate_tiles_length, h1, h2,
    pyRound_eq_of_eq_intCast (show ((1 : ℚ) - 0) / 1 = ((1 : ℤ) : ℚ) by norm_num)]
  rfl

/-- C9 amended: `generate_tiles` has no bounds validation and never raises on
inverted bounds; it snaps and iterates as usual, yielding the empty list when
the snapped rectangle is empty (bounds `(1, 0, 0, 1)`) and possibly a non-empty
list when snapping un-inverts the bounds (bounds `(1/2, 1/2, 2/5, 2/5)`). -/
theorem c9_no_invalid_bounds_error :
    generate_tiles (1, 0, 0, 1) 1 0 0 512 = [] ∧
    (generate_tiles ((1 : ℚ) / 2, (1 : ℚ) / 2, (2 : ℚ) / 5, (2 : ℚ) / 5) 1 0 0 512).length
      = 1 := by
  constructor
  · have ha : ⌊((1 : ℚ) - 0) / 1⌋ = 1 := floor_eq_of (by norm_num) (by norm_num)
    have hb : ⌈((0 : ℚ) - 0) / 1⌉ = 0 := ceil_eq_of (by norm_num) (by norm_num)
    have ha' : ⌊((0 : ℚ) - 0) / 1⌋ = 0 := floor_eq_of (by norm_num) (by norm_num)
    have hb' : ⌈((1 : ℚ) - 0) / 1⌉ = 1 := ceil_eq_of (by norm_num) (by norm_num)
    have h1 : snapped_start (1 : ℚ) 0 1 = 1 := by
      unfold snapped_start
      rw [ha]
      norm_num
    have h2 : snapped_end (0 : ℚ) 0 1 = 0 := by
      unfold snapped_end
      rw [hb]
      norm_num
    have h3 : snapped_start (0 : ℚ) 0 1 = 0 := by
      unfold snapped_start
      rw [ha']
      norm_num
    have h4 : snapped_end (1 : ℚ) 0 1 = 1 := by
      unfold snapped_end
      rw [hb']
      norm_num
    have hlen : (generate_tiles (1, 0, 0, 1) 1 0 0 512).length = 0 := by
      rw [generate_tiles_length, h1, h2, h3, h4,
        pyRound_eq_of_eq_intCast (show ((1 : ℚ) - 0) / 1 = ((1 : ℤ) : ℚ) by norm_num),
        pyRound_eq_of_eq_intCast (show ((0 : ℚ) - 1) / 1 = ((-1 : ℤ) : ℚ) by norm_num)]
      rfl
    exact List.length_eq_zero.mp hlen
  · have ha : ⌊((1 : ℚ) / 2 - 0) / 1⌋ = 0 := floor_eq_of (by norm_num) (by norm_num)
    have hb : ⌈((2 : ℚ) / 5 - 0) / 1⌉ = 1 := ceil_eq_of (by norm_num) (by norm_num)
    have h1 : snapped_start ((1 : ℚ) / 2) 0 1 = 0 := by
      unfold snapped_start
      rw [ha]
      norm_num
    have h2 : snapped_end ((2 : ℚ) / 5) 0 1 = 1 := by
      unfold snapped_end
      rw [hb]
      norm_num
    rw [generate_tiles_length, h1, h2,
      pyRound_eq_of_eq_intCast (show ((1 : ℚ) - 0) / 1 = ((1 : ℤ) : ℚ) by norm_num)]
    rfl

/-! ### Shape of a generated run -/

lemma snapped_diff_div (v w o s : ℚ) (hs : s ≠ 0) :
    (snapped_end w o s - snapped_start v o s) / s
      = ((⌈(w - o) / s⌉ - ⌊(v - o) / s⌋ : ℤ) : ℚ) := by
  unfold snapped_end snapped_start
  push_cast
  field_simp
  ring

lemma ceil_sub_floor_nonneg (v w o s : ℚ) (hvw : v ≤ w) (hs : 0 < s) :
    0 ≤ ⌈(w - o) / s⌉ - ⌊(v - o) / s⌋ := by
  have h1 : ⌊(v - o) / s⌋ ≤ ⌊(w - o) / s⌋ :=
    Int.floor_mono ((div_le_div_right hs).mpr (by linarith))
  have h2 : ⌊(w - o) / s⌋ ≤ ⌈(w - o) / s⌉ := Int.floor_le_ceil _
  omega

/-- C7: on proper bounds with positive tile size, `generate_tiles` returns a
fully materialized list of exactly `nrows * ncols` records
(`ncols = round((sxmax - sxmin) / tile_size)`, `nrows` likewise on the y axis,
both nonnegative), in row-major order (ascending row, then ascending column):
the record at list position `r * ncols + c` has lower-left corner
`(sxmin + c * tile_size, symin + r * tile_size)`, upper corner one tile size
further, and `(col, row)` and `tile_id` computed from that corner via
`idx_from_ll` and `format_tile_id`. Determinism is inherent: the embedding is
a pure function of its arguments. -/
theorem c7_generate_tiles_shape
    (xmin ymin xmax ymax tile_size origin_x origin_y resolution : ℚ)
    (hts : 0 < tile_size) (hx : xmin ≤ xmax) (hy : ymin ≤ ymax) :
    0 ≤ pyRound ((snapped_end xmax origin_x tile_size
        - snapped_start xmin origin_x tile_size) / tile_size) ∧
    0 ≤ pyRound ((snapped_end ymax origin_y tile_size
        - snapped_start ymin origin_y tile_size) / tile_size) ∧
    (generate_tiles (xmin, ymin, xmax, ymax) tile_size origin_x origin_y resolution).length =
      (pyRound ((snapped_end ymax origin_y tile_size
        - snapped_start ymin origin_y tile_size) / tile_size)).toNat *
      (pyRound ((snapped_end xmax origin_x tile_size
        - snapped_start xmin origin_x tile_size) / tile_size)).toNat ∧
    ∀ r c : ℕ,
      r < (pyRound ((snapped_end ymax origin_y tile_size
        - snapped_start ymin origin_y tile_size) / tile_size)).toNat →
      c < (pyRound ((snapped_end xmax origin_x tile_size
        - snapped_start xmin origin_x tile_size) / tile_size)).toNat →
      (generate_tiles (xmin, ymin, xmax, ymax) tile_size origin_x origin_y resolution)[
          r * (pyRound ((snapped_end xmax origin_x tile_size
            - snapped_start xmin origin_x tile_size) / tile_size)).toNat + c]? =
        some { tile_id := format_tile_id tile_size
                 (idx_from_ll (snapped_start xmin origin_x tile_size + (c : ℚ) * tile_size)
                   (snapped_start ymin origin_y tile_size + (r : ℚ) * tile_size)
                   origin_x origin_y tile_size).1
                 (idx_from_ll (snapped_start xmin origin_x tile_size + (c : ℚ) * tile_size)
                   (snapped_start ymin origin_y tile_size + (r : ℚ) * tile_size)
                   origin_x origin_y tile_size).2 resolution
               tile_size_ft := tile_size
               resolution_ft := resolution
               origin_x := origin_x
               origin_y := origin_y
               col := (idx_from_ll (snapped_start xmin origin_x tile_size + (c : ℚ) * tile_size)
                   (snapped_start ymin origin_y tile_size + (r : ℚ) * tile_size)
                   origin_x origin_y tile_size).1
               row := (idx_from_ll (snapped_start xmin origin_x tile_size + (c : ℚ) * tile_size)
                   (snapped_start ymin origin_y tile_size + (r : ℚ) * tile_size)
                   origin_x origin_y tile_size).2
               xmin := snapped_start xmin origin_x tile_size + (c : ℚ) * tile_size
               ymin := snapped_start ymin origin_y tile_size + (r : ℚ) * tile_size
               xmax := snapped_start xmin origin_x tile_size + (c : ℚ) * tile_size + tile_size
               ymax := snapped_start ymin origin_y tile_size + (r : ℚ) * tile_size + tile_size
               width := tile_size
               height := tile_size } := by
  have hsne : tile_size ≠ 0 := ne_of_gt hts
  refine ⟨?_, ?_, generate_tiles_length _ _ _ _ _ _ _ _, ?_⟩
  · rw [snapped_diff_div _ _ _ _ hsne, pyRound_intCast]
    exact ceil_sub_floor_nonneg _ _ _ _ hx hts
  · rw [snapped_diff_div _ _ _ _ hsne, pyRound_intCast]
    exact ceil_sub_floor_nonneg _ _ _ _ hy hts
  · intro r c hr hc
    exact @generate_tiles_getElem? xmin ymin xmax ymax
      tile_size origin_x origin_y resolution r c hr hc

theorem c7_witness :
    (generate_tiles (0, 0, 1, 1) 1 0 0 512).length =
      (pyRound ((snapped_end 1 0 1 - snapped_start 0 0 1) / 1)).toNat *
      (pyRound ((snapped_end 1 0 1 - snapped_start 0 0 1) / 1)).toNat :=
  (c7_generate_tiles_shape 0 0 1 1 1 0 0 512 (by norm_num) (by norm_num) (by norm_num)).2.2.1

/-- C1: for a fixed `GridSpec` (tile size, resolution, origin), any tile of a
run over bounds `B` and any tile of a run over enclosing bounds `B'` that have
the same lower-left corner carry identical `tile_id`, `col` and `row`:
the indices depend only on the corner and the spec, never on the run's bounds. -/
theorem c1_index_stability
    (xminB yminB xmaxB ymaxB xminB' yminB' xmaxB' ymaxB'
      tile_size origin_x origin_y resolution : ℚ)
    (hts : 0 < tile_size)
    (hcont : xminB' ≤ xminB ∧ yminB' ≤ yminB ∧ xmaxB ≤ xmaxB' ∧ ymaxB ≤ ymaxB')
    (t t' : Rec)
    (ht : t ∈ generate_tiles (xminB, yminB, xmaxB, ymaxB)
      tile_size origin_x origin_y resolution)
    (ht' : t' ∈ generate_tiles (xminB', yminB', xmaxB', ymaxB')
      tile_size origin_x origin_y resolution)
    (hx : t'.xmin = t.xmin) (hy : t'.ymin = t.ymin) :
    t'.tile_id = t.tile_id ∧ t'.col = t.col ∧ t'.row = t.row := by
  obtain ⟨hc, hr, hid⟩ := mem_generate_tiles ht
  obtain ⟨hc', hr', hid'⟩ := mem_generate_tiles ht'
  have hcol : t'.col = t.col := by rw [hc, hc', hx, hy]
  have hrow : t'.row = t.row := by rw [hr, hr', hx, hy]
  exact ⟨by rw [hid, hid', hcol, hrow], hcol, hrow⟩

theorem c1_witness :
    tileAt 1 0 0 512 0 0 0 0 ∈ generate_tiles (0, 0, 1, 1) 1 0 0 512 ∧
    tileAt 1 0 0 512 (-1) (-1) 1 1 ∈ generate_tiles (-1, -1, 2, 2) 1 0 0 512 ∧
    (tileAt 1 0 0 512 (-1) (-1) 1 1).tile_id = (tileAt 1 0 0 512 0 0 0 0).tile_id ∧
    (tileAt 1 0 0 512 (-1) (-1) 1 1).col = (tileAt 1 0 0 512 0 0 0 0).col ∧
    (tileAt 1 0 0 512 (-1) (-1) 1 1).row = (tileAt 1 0 0 512 0 0 0 0).row := by
  have hs0 : snapped_start (0 : ℚ) 0 1 = 0 := by
    unfold snapped_start
    rw [show ⌊((0 : ℚ) - 0) / 1⌋ = 0 from floor_eq_of (by norm_num) (by norm_num)]
    norm_num
  have he1 : snapped_end (1 : ℚ) 0 1 = 1 := by
    unfold snapped_end
    rw [show ⌈((1 : ℚ) - 0) / 1⌉ = 1 from ceil_eq_of (by norm_num) (by norm_num)]
    norm_num
  have hsm1 : snapped_start (-1 : ℚ) 0 1 = -1 := by
    unfold snapped_start
    rw [show ⌊((-1 : ℚ) - 0) / 1⌋ = -1 from floor_eq_of (by norm_num) (by norm_num)]
    norm_num
  have he2 : snapped_end (2 : ℚ) 0 1 = 2 := by
    unfold snapped_end
    rw [show ⌈((2 : ℚ) - 0) / 1⌉ = 2 from ceil_eq_of (by norm_num) (by norm_num)]
    norm_num
  have hn1 : pyRound ((snapped_end 1 0 1 - snapped_start 0 0 1) / 1) = 1 := by
    rw [hs0, he1]
    exact pyRound_eq_of_eq_intCast (by norm_num)
  have hn3 : pyRound ((snapped_end 2 0 1 - snapped_start (-1) 0 1) / 1) = 3 := by
    rw [hsm1, he2]
    exact pyRound_eq_of_eq_intCast (by norm_num)
  have hget1 := @generate_tiles_getElem? 0 0 1 1 1 0 0 512 0 0
    (by rw [hn1]; decide) (by rw [hn1]; decide)
  have hget2 := @generate_tiles_getElem? (-1) (-1) 2 2 1 0 0 512 1 1
    (by rw [hn3]; decide) (by rw [hn3]; decide)
  rw [hs0] at hget1
  rw [hsm1] at hget2
  have hm1 : tileAt 1 0 0 512 0 0 0 0 ∈ generate_tiles (0, 0, 1, 1) 1 0 0 512 :=
    List.getElem?_mem hget1
  have hm2 : tileAt 1 0 0 512 (-1) (-1) 1 1 ∈ generate_tiles (-1, -1, 2, 2) 1 0 0 512 :=
    List.getElem?_mem hget2
  have hx : (tileAt 1 0 0 512 (-1) (-1) 1 1).xmin = (tileAt 1 0 0 512 0 0 0 0).xmin := by
    simp only [tileAt]
    push_cast
    ring
  have hy : (tileAt 1 0 0 512 (-1) (-1) 1 1).ymin = (tileAt 1 0 0 512 0 0 0 0).ymin := by
    simp only [tileAt]
    push_cast
    ring
  have hkey := c1_index_stability 0 0 1 1 (-1) (-1) 2 2 1 0 0 512 (by norm_num)
    (by norm_num) _ _ hm1 hm2 hx hy
  exact ⟨hm1, hm2, hkey.1, hkey.2.1, hkey.2.2⟩

/-! ### Lexicographic order on character lists

The order on `String` in this toolchain is the lexicographic order `List.lt`
on the underlying character lists, so the ID sort-order claim is settled at
the `List Char` level. -/

lemma digit_lt_iff : ∀ d1 < 10, ∀ d2 < 10,
    (digitChar48 d1 < digitChar48 d2 ↔ d1 < d2) := by decide

lemma digit_eq_iff : ∀ d1 < 10, ∀ d2 < 10,
    (digitChar48 d1 = digitChar48 d2 ↔ d1 = d2) := by decide

lemma char_list_lt_cons_iff {a b : Char} {as bs : List Char} :
    (a :: as) < (b :: bs) ↔ a < b ∨ (a = b ∧ as < bs) := by
  show List.Lex _ _ _ ↔ _
  constructor
  · intro h
    cases h with
    | cons h => exact Or.inr ⟨rfl, h⟩
    | rel h => exact Or.inl h
  · rintro (h | ⟨rfl, h⟩)
    · exact List.Lex.rel h
    · exact List.Lex.cons h

lemma char_nil_not_lt_nil : ¬ ([] : List Char) < [] := fun h => nomatch h

lemma append_lt_append_left (p : List Char) {s t : List Char} :
    (p ++ s) < (p ++ t) ↔ s < t := by
  induction p with
  | nil => simp
  | cons a p ih =>
    simp only [List.cons_append, char_list_lt_cons_iff, lt_irrefl, false_or, true_and, ih]

lemma append_lt_append_iff {a b : List Char} (h : a.length = b.length) (s t : List Char) :
    (a ++ s) < (b ++ t) ↔ a < b ∨ (a = b ∧ s < t) := by
  induction a generalizing b with
  | nil =>
    cases b with
    | nil => simp [char_nil_not_lt_nil]
    | cons b bs => simp at h
  | cons x xs ih =>
    cases b with
    | nil => simp at h
    | cons y ys =>
      simp only [List.cons_append, char_list_lt_cons_iff, List.cons.injEq]
      rw [ih (by simpa using h)]
      constructor
      · rintro (h' | ⟨rfl, (h' | ⟨rfl, h'⟩)⟩)
        · exact Or.inl (Or.inl h')
        · exact Or.inl (Or.inr ⟨rfl, h'⟩)
        · exact Or.inr ⟨⟨rfl, rfl⟩, h'⟩
      · rintro ((h' | ⟨rfl, h'⟩) | ⟨⟨rfl, rfl⟩, h'⟩)
        · exact Or.inl h'
        · exact Or.inr ⟨rfl, Or.inl h'⟩
        · exact Or.inr ⟨rfl, Or.inr ⟨rfl, h'⟩⟩

/-! ### Numeric value of a big-endian digit list -/

/-- Value of a big-endian list of decimal digit values. -/
def valBE : List ℕ → ℕ
  | [] => 0
  | d :: t => d * 10 ^ t.length + valBE t

lemma valBE_lt (l : List ℕ) (h : ∀ d ∈ l, d < 10) : valBE l < 10 ^ l.length := by
  induction l with
  | nil => simp [valBE]
  | cons d t ih =>
    have hd : d < 10 := h d (by simp)
    have ht := ih fun x hx => h x (by simp [hx])
    simp only [valBE, List.length_cons, pow_succ]
    calc d * 10 ^ t.length + valBE t < d * 10 ^ t.length + 10 ^ t.length := by omega
      _ = (d + 1) * 10 ^ t.length := by ring
      _ ≤ 10 * 10 ^ t.length := Nat.mul_le_mul_right _ (by omega)
      _ = 10 ^ t.length * 10 := by ring

lemma valBE_append_singleton (l : List ℕ) (d : ℕ) :
    valBE (l ++ [d]) = valBE l * 10 + d := by
  induction l with
  | nil => simp [valBE]
  | cons e t ih =>
    simp only [List.cons_append, valBE, List.append_eq, List.length_append,
      List.length_cons, List.length_nil, ih]
    ring

lemma valBE_replicate_zero_append (j : ℕ) (l : List ℕ) :
    valBE (List.replicate j 0 ++ l) = valBE l := by
  induction j with
  | zero => simp
  | succ j ih => simp [List.replicate_succ, valBE, ih]

lemma valBE_cons_lt_of_head {d1 d2 : ℕ} (t1 t2 : List ℕ)
    (hlen : t1.length = t2.length) (hv1 : valBE t1 < 10 ^ t1.length) (h : d1 < d2) :
    valBE (d1 :: t1) < valBE (d2 :: t2) := by
  simp only [valBE, hlen] at hv1 ⊢
  calc d1 * 10 ^ t2.length + valBE t1 < d1 * 10 ^ t2.length + 10 ^ t2.length := by omega
    _ = (d1 + 1) * 10 ^ t2.length := by ring
    _ ≤ d2 * 10 ^ t2.length := Nat.mul_le_mul_right _ (by omega)
    _ ≤ d2 * 10 ^ t2.length + valBE t2 := Nat.le_add_right _ _

lemma map_digit_lt_eq_iff : ∀ l1 l2 : List ℕ, l1.length = l2.length →
    (∀ d ∈ l1, d < 10) → (∀ d ∈ l2, d < 10) →
    ((l1.map digitChar48 < l2.map digitChar48 ↔ valBE l1 < valBE l2) ∧
      (l1.map digitChar48 = l2.map digitChar48 ↔ valBE l1 = valBE l2)) := by
  intro l1
  induction l1 with
  | nil =>
    intro l2 h _ _
    cases l2 with
    | nil => simp [char_nil_not_lt_nil]
    | cons d t => simp at h
  | cons d1 t1 ih =>
    intro l2 h hd1 hd2
    cases l2 with
    | nil => simp at h
    | cons d2 t2 =>
      have hlen : t1.length = t2.length := by simpa using h
      have hda : d1 < 10 := hd1 d1 (by simp)
      have hdb : d2 < 10 := hd2 d2 (by simp)
      have hta : ∀ d ∈ t1, d < 10 := fun x hx => hd1 x (by simp [hx])
      have htb : ∀ d ∈ t2, d < 10 := fun x hx => hd2 x (by simp [hx])
      obtain ⟨iha, ihb⟩ := ih t2 hlen hta htb
      have hv1 := valBE_lt t1 hta
      have hv2 := valBE_lt t2 htb
      constructor
      · rw [List.map_cons, List.map_cons, char_list_lt_cons_iff,
          digit_lt_iff d1 hda d2 hdb, digit_eq_iff d1 hda d2 hdb, iha]
        constructor
        · rintro (h' | ⟨rfl, h'⟩)
          · exact valBE_cons_lt_of_head t1 t2 hlen hv1 h'
          · simp only [valBE, hlen]
            omega
        · intro h'
          rcases lt_trichotomy d1 d2 with hd | hd | hd
          · exact Or.inl hd
          · subst hd
            refine Or.inr ⟨rfl, ?_⟩
            simp only [valBE, hlen] at h'
            omega
          · exact absurd (valBE_cons_lt_of_head t2 t1 hlen.symm hv2 hd)
              (by omega)
      · rw [List.map_cons, List.map_cons, List.cons.injEq,
          digit_eq_iff d1 hda d2 hdb, ihb]
        constructor
        · rintro ⟨rfl, h'⟩
          simp only [valBE, hlen, h']
        · intro h'
          rcases lt_trichotomy d1 d2 with hd | hd | hd
          · exact absurd (valBE_cons_lt_of_head t1 t2 hlen hv1 hd) (by omega)
          · subst hd
            refine ⟨rfl, ?_⟩
            simp only [valBE, hlen] at h'
            omega
          · exact absurd (valBE_cons_lt_of_head t2 t1 hlen.symm hv2 hd) (by omega)

/-! ### Properties of the decimal digit lists -/

lemma decCore_congr : ∀ f g n, n < f → n < g → decCore f n = decCore g n := by
  intro f
  induction f with
  | zero => omega
  | succ f ih =>
    intro g n hf hg
    cases g with
    | zero => omega
    | succ g =>
      simp only [decCore]
      split_ifs with h
      · rfl
      · rw [ih g (n / 10) (by omega) (by omega)]

lemma natDigitsBE_eq (n : ℕ) :
    natDigitsBE n = if n < 10 then [n] else natDigitsBE (n / 10) ++ [n % 10] := by
  show decCore (n + 1) n = _
  simp only [decCore]
  split_ifs with h
  · rfl
  · rw [decCore_congr n (n / 10 + 1) (n / 10) (by omega) (by omega)]
    rfl

lemma natDigitsBE_digits (n : ℕ) : ∀ d ∈ natDigitsBE n, d < 10 := by
  induction n using Nat.strong_induction_on with
  | _ n ih =>
    rw [natDigitsBE_eq]
    split_ifs with h
    · intro d hd
      simp only [List.mem_singleton] at hd
      omega
    · intro d hd
      rcases List.mem_append.mp hd with hd' | hd'
      · exact ih (n / 10) (by omega) d hd'
      · simp only [List.mem_singleton] at hd'
        omega

lemma natDigitsBE_val (n : ℕ) : valBE (natDigitsBE n) = n := by
  induction n using Nat.strong_induction_on with
  | _ n ih =>
    rw [natDigitsBE_eq]
    split_ifs with h
    · simp [valBE]
    · rw [valBE_append_singleton, ih (n / 10) (by omega)]
      omega

lemma natDigitsBE_len_le : ∀ k, 1 ≤ k → ∀ n, n < 10 ^ k → (natDigitsBE n).length ≤ k := by
  intro k
  induction k with
  | zero => omega
  | succ k ih =>
    intro _ n hn
    rw [natDigitsBE_eq]
    split_ifs with h
    · simp
    · cases k with
      | zero =>
        exfalso
        simp only [pow_succ, pow_zero, one_mul] at hn
        omega
      | succ k =>
        have hd : n / 10 < 10 ^ (k + 1) := by
          have : n < 10 ^ (k + 1) * 10 := by
            calc n < 10 ^ (k + 2) := hn
              _ = 10 ^ (k + 1) * 10 := by ring
          omega
        have := ih (by omega) (n / 10) hd
        simp only [List.length_append, List.length_singleton]
        omega

/-- The six-digit zero-padded decimal digit values of a natural number,
the digit content of a `+07d` field for a nonnegative in-range value. -/
def padDs (n : ℕ) : List ℕ :=
  List.replicate (6 - (natDigitsBE n).length) 0 ++ natDigitsBE n

lemma padDs_digits (n : ℕ) : ∀ d ∈ padDs n, d < 10 := by
  intro d hd
  rcases List.mem_append.mp hd with hd' | hd'
  · rw [List.eq_of_mem_replicate hd']
    omega
  · exact natDigitsBE_digits n d hd'

lemma padDs_len (n : ℕ) (h : n < 1000000) : (padDs n).length = 6 := by
  have hle := natDigitsBE_len_le 6 (by omega) n (by norm_num; omega)
  simp only [padDs, List.length_append, List.length_replicate]
  omega

lemma padDs_val (n : ℕ) : valBE (padDs n) = n := by
  rw [padDs, valBE_replicate_zero_append, natDigitsBE_val]

lemma digitChar48_zero : digitChar48 0 = '0' := rfl

lemma fmtPlus07_nonneg (n : ℤ) (h0 : 0 ≤ n) :
    fmtPlus07 n = '+' :: (padDs n.toNat).map digitChar48 := by
  have habs : n.natAbs = n.toNat := by omega
  rw [fmtPlus07, if_neg (not_lt.mpr h0), habs, padDs]
  simp only [decDigits, List.map_append, List.map_replicate, digitChar48_zero,
    List.length_map, List.singleton_append, List.cons_append, List.nil_append]

/-! ### Sort order of tile IDs -/

lemma toList_mk (L : List Char) : (String.mk L).toList = L := rfl

lemma plusD_lt_iff (a b : ℤ) (h0a : 0 ≤ a) (ha : a ≤ 999999) (h0b : 0 ≤ b) (hb : b ≤ 999999) :
    ('+' :: (padDs a.toNat).map digitChar48 < '+' :: (padDs b.toNat).map digitChar48) ↔
      a < b := by
  obtain ⟨hlt, heq⟩ := map_digit_lt_eq_iff (padDs a.toNat) (padDs b.toNat)
    (by rw [padDs_len _ (by omega), padDs_len _ (by omega)])
    (padDs_digits _) (padDs_digits _)
  rw [char_list_lt_cons_iff]
  simp only [lt_irrefl, false_or, true_and]
  rw [hlt, padDs_val, padDs_val]
  omega

lemma plusD_eq_iff (a b : ℤ) (h0a : 0 ≤ a) (ha : a ≤ 999999) (h0b : 0 ≤ b) (hb : b ≤ 999999) :
    ('+' :: (padDs a.toNat).map digitChar48 = '+' :: (padDs b.toNat).map digitChar48) ↔
      a = b := by
  obtain ⟨hlt, heq⟩ := map_digit_lt_eq_iff (padDs a.toNat) (padDs b.toNat)
    (by rw [padDs_len _ (by omega), padDs_len _ (by omega)])
    (padDs_digits _) (padDs_digits _)
  simp only [List.cons.injEq, true_and]
  rw [heq, padDs_val, padDs_val]
  omega

lemma blocks_lt_iff (p m : List Char) {a1 a2 b1 b2 : List Char}
    (hla : a1.length = a2.length) :
    (p ++ (a1 ++ (m ++ b1))) < (p ++ (a2 ++ (m ++ b2))) ↔
      (a1 < a2 ∨ (a1 = a2 ∧ b1 < b2)) := by
  rw [append_lt_append_left, append_lt_append_iff hla]
  constructor
  · rintro (h | ⟨rfl, h⟩)
    · exact Or.inl h
    · exact Or.inr ⟨rfl, (append_lt_append_left m).mp h⟩
  · rintro (h | ⟨rfl, h⟩)
    · exact Or.inl h
    · exact Or.inr ⟨rfl, (append_lt_append_left m).mpr h⟩

/-- C3 counterexample: with `tile_size = 98304`, `resolution = 32`, take
`(col1, row1) = (1, 0)` and `(col2, row2) = (0, 1)`. Numerically
`(row1, col1) = (0, 1) < (1, 0) = (row2, col2)`, yet the first ID is not
lexicographically smaller: the column field precedes the row field in the ID,
so ID order follows `(col, row)`, not `(row, col)`. -/
theorem c3_counterexample :
    ((0 : ℤ) < 1 ∨ ((0 : ℤ) = 1 ∧ (1 : ℤ) < 0)) ∧
    ¬ (format_tile_id 98304 1 0 32 < format_tile_id 98304 0 1 32) := by
  refine ⟨Or.inl (by norm_num), ?_⟩
  have h1 : format_tile_id 98304 1 0 32 = "T98304_R32_C+000001_R+000000" := by
    simp only [format_tile_id, pyRound_98304, pyRound_32]
    decide
  have h2 : format_tile_id 98304 0 1 32 = "T98304_R32_C+000000_R+000001" := by
    simp only [format_tile_id, pyRound_98304, pyRound_32]
    decide
  rw [h1, h2, String.lt_iff_toList_lt]
  decide

/-- C3 amended: for a fixed `tile_size` and `resolution` and indices that are
nonnegative and at most 999,999 (at most six digits, where the `+07d` field is
genuinely fixed-width), tile IDs sort lexicographically exactly as `(col, row)`
ascending numerically - the column field precedes the row field in the ID.
Outside this range the property fails: the claimed `(row, col)` key is wrong,
negative indices sort after positive ones (the ASCII minus sign exceeds the
plus sign), and at 10^6 the field widens. -/
theorem c3_amended_sort_order (tile_size resolution : ℚ) (col1 row1 col2 row2 : ℤ)
    (h1 : 0 ≤ col1) (h2 : col1 ≤ 999999) (h3 : 0 ≤ row1) (h4 : row1 ≤ 999999)
    (h5 : 0 ≤ col2) (h6 : col2 ≤ 999999) (h7 : 0 ≤ row2) (h8 : row2 ≤ 999999) :
    (format_tile_id tile_size col1 row1 resolution
        < format_tile_id tile_size col2 row2 resolution ↔
      (col1 < col2 ∨ (col1 = col2 ∧ row1 < row2))) := by
  rw [String.lt_iff_toList_lt]
  simp only [format_tile_id, toList_mk]
  have hshape : ∀ cl rr : ℤ,
      ['T'] ++ intDigits (pyRound tile_size) ++ ['_', 'R'] ++ intDigits (pyRound resolution)
          ++ ['_', 'C'] ++ fmtPlus07 cl ++ ['_', 'R'] ++ fmtPlus07 rr =
        (['T'] ++ intDigits (pyRound tile_size) ++ ['_', 'R']
            ++ intDigits (pyRound resolution) ++ ['_', 'C'])
          ++ (fmtPlus07 cl ++ (['_', 'R'] ++ fmtPlus07 rr)) := by
    intro cl rr
    simp [List.append_assoc]
  rw [hshape col1 row1, hshape col2 row2,
    fmtPlus07_nonneg col1 h1, fmtPlus07_nonneg row1 h3,
    fmtPlus07_nonneg col2 h5, fmtPlus07_nonneg row2 h7]
  rw [blocks_lt_iff _ _ (by
    simp only [List.length_cons, List.length_map]
    rw [padDs_len _ (by omega), padDs_len _ (by omega)])]
  rw [plusD_lt_iff col1 col2 h1 h2 h5 h6, plusD_eq_iff col1 col2 h1 h2 h5 h6,
    plusD_lt_iff row1 row2 h3 h4 h7 h8]

theorem c3_witness :
    (format_tile_id 98304 0 0 32 < format_tile_id 98304 1 0 32 ↔
      ((0 : ℤ) < 1 ∨ ((0 : ℤ) = 1 ∧ (0 : ℤ) < 0))) :=
  c3_amended_sort_order 98304 32 0 0 1 0 (by norm_num) (by norm_num) (by norm_num)
    (by norm_num) (by norm_num) (by norm_num) (by norm_num) (by norm_num)

end FfrdTiles
